import Mathlib

/-!
Verification of the fiber-section meshing core of OpsPy-Mesh2Model.

The development shallowly embeds the section meshing and fiber
discretization engine: the `Shape` mesh hints and geometry queries
(`geometry/shapes.py`), the `Mesh`/`Fiber` containers and the
`MeshGenerator` strategies (`meshing/mesh.py`), and the undoable
mesh-regeneration command (`data/data_manager.py`).

Modelling conventions:
* Python floats are modelled as exact rationals (`ℚ`); all geometric
  formulas (shoelace area, area-weighted centroid) are the ones the
  external `shapely` library computes in double precision.
* Shapely geometry objects are modelled by their observable interface:
  a strict containment test (`geometry.contains`), a boundary-inclusive
  test (`contains` or `touches`), and a bounding box — each a field of
  the embedded `Shape`.
* The external constrained triangulation engine
  (`sectionproperties.create_mesh` plus node/element extraction,
  `mesh.py` lines 240-331) is an oracle parameter producing an optional
  node list and element list; `none` models the caught exception path.
* Python statements that can raise are embedded with `Option`/`Except`:
  `none`/`.error` means the statement raised.
-/

namespace Mesh2Model

/-- A point of the section plane, a `(y, z)` pair of rationals. -/
abbrev Point : Type := ℚ × ℚ

/-- The per-shape mesh type hint (`shape.mesh_type`, default triangular). -/
inductive MeshType where
  | triangular
  | quadrilateral
deriving DecidableEq, Repr

/-- A shapely bounding box `geometry.bounds`; with our `(y, z)` points
stored as shapely `(x, y)` coordinates this is
`(min_y, min_z, max_y, max_z)`, read positionally in the source
(`mesh.py` lines 365-369). -/
structure BBox where
  minY : ℚ
  minZ : ℚ
  maxY : ℚ
  maxZ : ℚ
deriving DecidableEq, Repr

/-- Embedded `Shape` (`geometry/shapes.py`): the attributes the meshing
core reads, with the shapely geometry object abstracted to its
containment tests and bounding box. `Shape.__init__` always defines
`mesh_size` (defaulting to `None`) and `mesh_type`. -/
structure Shape where
  id : ℤ
  material_id : Option ℤ
  active : Bool
  mesh_size : Option ℚ
  mesh_type : MeshType
  /-- Strict shapely containment, `Shape.is_point_inside` /
  `geometry.contains` (interior only). -/
  contains : Point → Bool
  /-- Boundary-inclusive test `geometry.contains(p) or
  geometry.touches(p)` used by the quad-mesh corner check. -/
  containsOrTouches : Point → Bool
  /-- The shapely `geometry.bounds` box. -/
  bounds : BBox

/-- Embedded `Fiber` (`meshing/mesh.py` lines 90-97); `active` is
initialised to true by the constructor. -/
structure Fiber where
  id : ℤ
  y : ℚ
  z : ℚ
  area : ℚ
  material_id : ℤ
  active : Bool
deriving DecidableEq, Repr

/-- Embedded `Mesh` (`meshing/mesh.py` lines 10-16): indexed node list,
elements as node-index lists, a parallel material list and a fiber list. -/
structure Mesh where
  id : ℤ
  nodes : List Point
  elements : List (List ℕ)
  element_materials : List ℤ
  fibers : List Fiber
deriving DecidableEq, Repr

/-! ### Polygon geometry (the shapely `Polygon.area` / `Polygon.centroid`
formulas applied to an element's vertex list). -/

/-- Pair every vertex with its cyclic successor. -/
def cyclicPairs (ps : List Point) : List (Point × Point) :=
  ps.zip (ps.drop 1 ++ ps.take 1)

/-- Twice the signed shoelace area of the polygon with vertex list `ps`. -/
def signedArea2 (ps : List Point) : ℚ :=
  ((cyclicPairs ps).map (fun pq => pq.1.1 * pq.2.2 - pq.2.1 * pq.1.2)).sum

/-- Shapely `Polygon.area`: absolute shoelace area. -/
def polyArea (ps : List Point) : ℚ :=
  |signedArea2 ps| / 2

/-- Shapely `Polygon.centroid`: the area-weighted polygon centroid.  For a
zero-area polygon the rational division by zero yields `0` (shapely
returns an empty point there; no claim depends on that degenerate value). -/
def polyCentroid (ps : List Point) : Point :=
  let a2 := signedArea2 ps
  (((cyclicPairs ps).map
      (fun pq => (pq.1.1 + pq.2.1) * (pq.1.1 * pq.2.2 - pq.2.1 * pq.1.2))).sum / (3 * a2),
   ((cyclicPairs ps).map
      (fun pq => (pq.1.2 + pq.2.2) * (pq.1.1 * pq.2.2 - pq.2.1 * pq.1.2))).sum / (3 * a2))

/-! ### Fiber discretization, `Mesh.generate_fibers`
(`meshing/mesh.py` lines 27-60). -/

/-- The material-resolution loop of `generate_fibers` (`mesh.py` lines
48-53): default material 1; the first active shape strictly containing
the centroid supplies its `material_id` when set (the loop breaks there
either way). -/
def resolve_material : List Shape → Point → ℤ
  | [], _ => 1
  | s :: rest, p =>
    if s.active && s.contains p then
      match s.material_id with
      | some m => m
      | none => 1
    else resolve_material rest p

/-- Look up the coordinates of one element's node ids
(`node_coords = [self.nodes[node_id] for node_id in element]`,
`mesh.py` line 34); `none` models the `IndexError` on an invalid id. -/
def nodeCoords (nodes : List Point) : List ℕ → Option (List Point)
  | [] => some []
  | nid :: rest =>
    match nodes[nid]?, nodeCoords nodes rest with
    | some p, some ps => some (p :: ps)
    | _, _ => none

/-- Coordinates of every element in visitation order; `none` as soon as
one element holds an invalid node id. -/
def elementCoords (nodes : List Point) : List (List ℕ) → Option (List (List Point))
  | [] => some []
  | e :: rest =>
    match nodeCoords nodes e, elementCoords nodes rest with
    | some ps, some pss => some (ps :: pss)
    | _, _ => none

/-- A shapely polygon value, reduced to its exterior coordinate ring
(closed: shapely stores the ring with the first coordinate repeated at
the end). -/
structure SPoly where
  coords : List Point
deriving DecidableEq, Repr

/-- Model of the external shapely `Polygon` constructor: an empty
coordinate sequence builds the empty polygon; a nonempty sequence is
closed by appending the first coordinate when first and last differ,
and the resulting linear ring must hold at least 4 coordinates —
otherwise the constructor raises `ValueError`.  So 1 or 2 coordinates
always raise, 3 coordinates raise exactly when they already form a
closed ring (first = last), and 4 or more always construct. -/
def shapely_polygon (coords : List Point) : Except String SPoly :=
  match coords with
  | [] => .ok ⟨[]⟩
  | c :: rest =>
    let closed :=
      if c = (c :: rest).getLast (List.cons_ne_nil c rest) then c :: rest
      else (c :: rest) ++ [c]
    if 4 ≤ closed.length then .ok ⟨closed⟩ else .error "ValueError"

/-- The fiber built for the element at visitation index `i` (0-based)
whose polygon has exterior ring `ring` (`mesh.py` lines 34-58):
shoelace area, area-weighted centroid as the `(y, z)` position,
resolved material, id `i + 1`.  (The repeated closing coordinate
contributes a zero cross term, so the shoelace formulas over the closed
ring equal those over the open vertex list.) -/
def mkFiber (shapes : List Shape) (i : ℕ) (ring : List Point) : Fiber :=
  let c := polyCentroid ring
  { id := (i : ℤ) + 1
    y := c.1
    z := c.2
    area := polyArea ring
    material_id := resolve_material shapes c
    active := true }

/-- The element loop of `generate_fibers` (`mesh.py` lines 32-58),
starting at visitation index `i`: each element's coordinates go through
the shapely `Polygon` constructor (which raises on a degenerate ring),
and the `centroid.x` access raises on the empty polygon (built from an
element with no nodes); both raises are `none`. -/
def elementFibers (shapes : List Shape) : ℕ → List (List Point) → Option (List Fiber)
  | _, [] => some []
  | i, ps :: rest =>
    match shapely_polygon ps with
    | .error _ => none
    | .ok poly =>
      if poly.coords.isEmpty then none
      else
        match elementFibers shapes (i + 1) rest with
        | none => none
        | some fs => some (mkFiber shapes i poly.coords :: fs)

/-- Embedded `Mesh.generate_fibers` (`mesh.py` lines 27-60): resets
`self.fibers`, builds one fiber per element with sequential ids from 1,
stores the list on the mesh and returns it.  `none` models a raise:
the `IndexError` on an out-of-range node id, the polygon constructor's
`ValueError` on a degenerate element ring, or the centroid coordinate
access on an empty element. -/
def generate_fibers (m : Mesh) (shapes : List Shape) : Option (Mesh × List Fiber) :=
  match elementCoords m.nodes m.elements with
  | none => none
  | some css =>
    match elementFibers shapes 0 css with
    | none => none
    | some fibers => some ({ m with fibers := fibers }, fibers)

/-! ### The mesh generator, `MeshGenerator` (`meshing/mesh.py` lines 131-436). -/

/-- The mesh-size coercion shared by both strategies (`mesh.py` lines
185-193 and 337-345): `None` falls back to the fixed default `0.1`.
The `float()` conversion-failure branch is unrepresentable here because
the embedded size is already numeric. -/
def resolve_mesh_size (ms : Option ℚ) : ℚ :=
  match ms with
  | none => 1 / 10
  | some v => v

/-- Python `int()` applied to a float: truncation toward zero. -/
def pyInt (q : ℚ) : ℤ :=
  if 0 ≤ q then ⌊q⌋ else ⌈q⌉

/-- Python `x or 1` applied to the optional `shape.material_id`
(`mesh.py` line 176): `None` and `0` are falsy and give 1. -/
def pyOr1 (m : Option ℤ) : ℤ :=
  match m with
  | none => 1
  | some v => if v = 0 then 1 else v

/-- The regular quad-strategy node grid (`mesh.py` lines 391-400): row
`i` of `nZ + 1` rows holds `nY + 1` nodes, node `(i, j)` sitting at
`(min_y + j·width/nY, min_z + i·height/nZ)`; ids ascend row-major. -/
def quadNodes (minY minZ width height : ℚ) (nY nZ : ℕ) : List Point :=
  (List.range (nZ + 1)).flatMap fun i =>
    (List.range (nY + 1)).map fun j =>
      (minY + (j : ℚ) * width / (nY : ℚ), minZ + (i : ℚ) * height / (nZ : ℚ))

/-- The row-major node id of grid position `(i, j)`. -/
def quadIdx (nY i j : ℕ) : ℕ :=
  i * (nY + 1) + j

/-- The four corner node ids of grid cell `(i, j)` in source order
`[n1, n2, n3, n4]` (`mesh.py` lines 405-409). -/
def quadCorners (nY i j : ℕ) : List ℕ :=
  [quadIdx nY i j, quadIdx nY i (j + 1), quadIdx nY (i + 1) (j + 1), quadIdx nY (i + 1) j]

/-- The corner test of one grid cell (`mesh.py` lines 417-427): count
the corners lying inside or touching some active shape. -/
def quadInsideCount (active : List Shape) (nodes : List Point) (nY i j : ℕ) : ℕ :=
  ((quadCorners nY i j).map (fun n => nodes.getD n (0, 0))).countP
    (fun p => active.any fun s => s.containsOrTouches p)

/-- The quad elements (`mesh.py` lines 403-432): a cell is kept exactly
when at least 3 of its 4 corners pass the inclusion test. -/
def quadCells (active : List Shape) (nodes : List Point) (nY nZ : ℕ) : List (List ℕ) :=
  (List.range nZ).flatMap fun i =>
    (List.range nY).filterMap fun j =>
      if 3 ≤ quadInsideCount active nodes nY i j then some (quadCorners nY i j) else none

/-- Accumulate the union of bounding boxes, starting from the
`±inf` sentinel modelled by `none` (`mesh.py` lines 356-369). -/
def bboxUnion : Option BBox → BBox → Option BBox
  | none, b => some b
  | some a, b => some ⟨min a.minY b.minY, min a.minZ b.minZ, max a.maxY b.maxY, max a.maxZ b.maxZ⟩

/-- Bounding box of a list of (already active-filtered) shapes; `none`
models the `min_y == inf` early return when no shape contributed. -/
def activeBBox (shapes : List Shape) : Option BBox :=
  shapes.foldl (fun acc s => bboxUnion acc s.bounds) none

/-- Embedded `MeshGenerator._generate_quad_mesh` (`mesh.py` lines
335-436): resolve the mesh size, bail out on an empty shape list or an
empty active set, lay a `(nZ+1) × (nY+1)` node grid over the joint
bounding box with `nY = max(2, int(width/mesh_size))` and
`nZ = max(2, int(height/mesh_size))`, and keep each cell whose corner
count reaches 3, with material placeholder 1 per element. -/
def generate_quad_mesh (shapes : List Shape) (msOpt : Option ℚ) (mid : ℤ) : Option Mesh :=
  let ms := resolve_mesh_size msOpt
  match shapes with
  | [] => none
  | _ :: _ =>
    let active := shapes.filter (fun s => s.active)
    match activeBBox active with
    | none => none
    | some bb =>
      let width := bb.maxY - bb.minY
      let height := bb.maxZ - bb.minZ
      let nY := max 2 (pyInt (width / ms)).toNat
      let nZ := max 2 (pyInt (height / ms)).toNat
      let nodes := quadNodes bb.minY bb.minZ width height nY nZ
      let elems := quadCells active nodes nY nZ
      some { id := mid
             nodes := nodes
             elements := elems
             element_materials := elems.map fun _ => 1
             fibers := [] }

/-- The external triangulation engine
(`compound_geometry.create_mesh` + `Section` + node/element extraction,
`mesh.py` lines 240-331), abstracted as an oracle from the active shape
list and the resolved mesh size to extracted nodes and elements; `none`
models the caught engine exception (`return None`). -/
def TriOracle : Type :=
  List Shape → ℚ → Option (List Point × List (List ℕ))

/-- Embedded `MeshGenerator._generate_tri_mesh` (`mesh.py` lines
183-333): resolve the mesh size, keep the active shapes (every embedded
shape has a geometry), return `none` when none are left, otherwise
defer to the triangulation oracle; extracted elements carry the
placeholder material 1. -/
def generate_tri_mesh (tri : TriOracle) (shapes : List Shape) (msOpt : Option ℚ) (mid : ℤ) :
    Option Mesh :=
  let ms := resolve_mesh_size msOpt
  match shapes.filter (fun s => s.active) with
  | [] => none
  | g :: gs =>
    match tri (g :: gs) ms with
    | none => none
    | some (ns, es) =>
      some { id := mid
             nodes := ns
             elements := es
             element_materials := es.map fun _ => 1
             fibers := [] }

/-- Remap one element's local node ids by the merge dictionary
`node_mapping` (`mesh.py` line 175): local id `old` maps to
`base + old` when `old` indexes the local node list, and the lookup of
any other id raises `KeyError` (`none`). -/
def remapElement (base len : ℕ) : List ℕ → Option (List ℕ)
  | [] => some []
  | n :: rest =>
    if n < len then (remapElement base len rest).map (fun r => (base + n) :: r)
    else none

/-- Remap every element of a local mesh, failing as soon as one lookup
fails. -/
def remapElements (base len : ℕ) : List (List ℕ) → Option (List (List ℕ))
  | [] => some []
  | e :: rest =>
    match remapElement base len e, remapElements base len rest with
    | some e2, some rest2 => some (e2 :: rest2)
    | _, _ => none

/-- Merge one shape's local mesh into the accumulated mesh (`mesh.py`
lines 166-176): append the local nodes after the current ones, remap and
append the local elements, and record `shape.material_id or 1` per new
element. -/
def mergeShapeMesh (acc : Mesh) (matId : ℤ) (lm : Mesh) : Option Mesh :=
  let base := acc.nodes.length
  match remapElements base lm.nodes.length lm.elements with
  | none => none
  | some mapped =>
    some { acc with
           nodes := acc.nodes ++ lm.nodes
           elements := acc.elements ++ mapped
           element_materials := acc.element_materials ++ mapped.map fun _ => matId }

/-- The per-shape strategy dispatch of `generate_mesh` (`mesh.py` lines
153-163).  The mesh size handed to the strategy is
`getattr(shape, 'mesh_size', global_mesh_size)`; since `Shape.__init__`
always defines `mesh_size`, that is `shape.mesh_size` itself and the
global size default of the `getattr` is never taken. -/
def shapeLocalMesh (tri : TriOracle) (shape : Shape) (mid : ℤ) : Option Mesh :=
  match shape.mesh_type with
  | .quadrilateral => generate_quad_mesh [shape] shape.mesh_size mid
  | .triangular => generate_tri_mesh tri [shape] shape.mesh_size mid

/-- The fresh merged mesh `Mesh(self.current_mesh_id)` the generator
starts from (`mesh.py` lines 10-16 and 146). -/
def emptyMeshAt (c : ℤ) : Mesh :=
  { id := c, nodes := [], elements := [], element_materials := [], fibers := [] }

/-- The shape loop of `MeshGenerator.generate_mesh` (`mesh.py` lines
151-178): inactive shapes are skipped, a failed strategy (`None`) skips
the shape, and a successful local mesh is merged; a failed merge lookup
propagates the `KeyError`.  The local mesh ids taken from the generator
counter are bookkeeping invisible in the merged result; the counter is
threaded per strategy call. -/
def genLoop (tri : TriOracle) : List Shape → Mesh → ℤ → Except String Mesh
  | [], acc, _ => .ok acc
  | shape :: rest, acc, cid =>
    if shape.active then
      match shapeLocalMesh tri shape cid with
      | some lm =>
        match mergeShapeMesh acc (pyOr1 shape.material_id) lm with
        | some acc2 => genLoop tri rest acc2 (cid + 1)
        | none => .error "KeyError"
      | none => genLoop tri rest acc (cid + 1)
    else genLoop tri rest acc cid

/-- Embedded `MeshGenerator.generate_mesh` (`mesh.py` lines 135-181):
returns `None` exactly on an empty input list, otherwise runs every
shape through the strategy-and-merge loop starting from an empty merged
mesh whose id is the current generator counter.  The
`global_mesh_size` argument is never consulted by the loop because every
`Shape` defines its own `mesh_size` attribute (see `shapeLocalMesh`).
`.error` models an uncaught `KeyError` escaping the call. -/
def generate_mesh (tri : TriOracle) (shapes : List Shape) (global_mesh_size : ℚ) (c : ℤ) :
    Except String (Option Mesh) :=
  match shapes with
  | [] => .ok none
  | s :: rest =>
    match genLoop tri (s :: rest) (emptyMeshAt c) (c + 1) with
    | .ok m => .ok (some m)
    | .error e => .error e

/-! ### The mesh-regeneration command
(`data/data_manager.py`, `OperationGenerateMesh` and `DataManager`). -/

/-- Embedded `SectionData` (`data_manager.py` lines 137-147), restricted
to the fields the regeneration command reads or writes; name, torsional
stiffness and timestamps are omitted as no claim observes them. -/
structure SectionData where
  id : ℤ
  shapes : List Shape
  mesh : Option Mesh
  fibers : List Fiber

/-- Embedded `OperationGenerateMesh` state (`data_manager.py` lines
73-80): the captured prior mesh, the cached freshly generated mesh, and
the fiber snapshot taken at `execute` time (initially `None`).
Python's aliasing of the mesh objects between the command and the
section is modelled by updating both copies of the value whenever the
source mutates the shared object. -/
structure OpGenMesh where
  section_id : ℤ
  old_mesh : Option Mesh
  new_mesh : Option Mesh
  old_fibers : Option (List Fiber)

/-- Embedded `OperationGenerateMesh.execute` (`data_manager.py` lines
82-115): snapshot `section.fibers`, install the cached new mesh,
regenerate mesh fibers from the active shapes, merge them after the
existing fibers keeping only novel ids, store the merged list on the
section and the fresh list on the new mesh object.  `none` models a
raise: the `IndexError` of `generate_fibers` on an invalid mesh, or the
`AttributeError` of `self.new_mesh.fibers = ...` when the cached mesh is
`None`. -/
def op_execute (op : OpGenMesh) (sd : SectionData) : Option (OpGenMesh × SectionData) :=
  let old_fibers := sd.fibers
  let sd1 : SectionData := { sd with mesh := op.new_mesh }
  let existing := sd1.fibers
  match op.new_mesh with
  | some m =>
    match generate_fibers m (sd1.shapes.filter (fun s => s.active)) with
    | none => none
    | some (m2, new_mesh_fibers) =>
      let merged := existing ++
        new_mesh_fibers.filter (fun f => !((existing.map (fun e => e.id)).contains f.id))
      some ({ op with old_fibers := some old_fibers, new_mesh := some m2 },
            { sd1 with mesh := some m2, fibers := merged })
  | none => none

/-- Embedded `OperationGenerateMesh.undo` (`data_manager.py` lines
117-134): restore the captured prior mesh, restore the fiber snapshot
(falling back to the prior mesh's fibers, then to the empty list), and
finally overwrite the prior mesh object's `fibers` attribute with
`self.old_fibers if self.old_fibers else []`; through aliasing the
restored `section.mesh` carries that overwritten fiber list. -/
def op_undo (op : OpGenMesh) (sd : SectionData) : OpGenMesh × SectionData :=
  let restored : List Fiber :=
    match op.old_fibers with
    | some fs => fs
    | none =>
      match op.old_mesh with
      | some m => m.fibers
      | none => []
  match op.old_mesh with
  | some m =>
    let fibForMesh : List Fiber :=
      match op.old_fibers with
      | some fs => if fs.isEmpty then [] else fs
      | none => []
    let m2 : Mesh := { m with fibers := fibForMesh }
    ({ op with old_mesh := some m2 }, { sd with mesh := some m2, fibers := restored })
  | none =>
    (op, { sd with mesh := none, fibers := restored })

/-- Embedded `DataManager.generate_mesh` (`data_manager.py` lines
392-403) for the section being edited: build the command capturing the
current mesh and execute it.  The push onto the undo stack and the redo
stack clearing move the same command value between lists and are not
modelled.  `DataManager.undo` then runs `op_undo` on the popped command
and `DataManager.redo` re-runs `op_execute` on it. -/
def dm_generate_mesh (sd : SectionData) (newMesh : Option Mesh) :
    Option (OpGenMesh × SectionData) :=
  let op : OpGenMesh :=
    { section_id := sd.id, old_mesh := sd.mesh, new_mesh := newMesh, old_fibers := none }
  op_execute op sd

/-! ### Polygon shape construction
(`geometry/shapes.py`, `PolygonShape._create_geometry`). -/

/-- The canonical fallback geometry as the shapely constructor stores
it: `Polygon([(0,0),(1,0),(1,1),(0,1)])` with the ring closed
(`shapes.py` line 274). -/
def unitSquarePoly : SPoly :=
  ⟨[(0, 0), (1, 0), (1, 1), (0, 1), (0, 0)]⟩

/-- Embedded `PolygonShape._create_geometry` (`shapes.py` lines
270-278): an empty vertex list yields the unit-square fallback;
otherwise the list is closed when first and last differ and
`Polygon(vertices[:-1])` is built, with `.error` modelling the shapely
raise. -/
def polygon_create_geometry (vertices : List Point) : Except String SPoly :=
  match vertices with
  | [] => shapely_polygon [(0, 0), (1, 0), (1, 1), (0, 1)]
  | v0 :: rest =>
    let vs := v0 :: rest
    let closed := if v0 = vs.getLast (List.cons_ne_nil v0 rest) then vs else vs ++ [v0]
    shapely_polygon closed.dropLast

/-- Decidable equality for embedded raising computations, so concrete
runs can be checked by `decide`. -/
instance {ε α : Type} [DecidableEq ε] [DecidableEq α] : DecidableEq (Except ε α) := fun a b =>
  match a, b with
  | .ok x, .ok y =>
    if h : x = y then .isTrue (by rw [h]) else .isFalse (by intro hh; cases hh; exact h rfl)
  | .error x, .error y =>
    if h : x = y then .isTrue (by rw [h]) else .isFalse (by intro hh; cases hh; exact h rfl)
  | .ok _, .error _ => .isFalse (fun hh => Except.noConfusion hh)
  | .error _, .ok _ => .isFalse (fun hh => Except.noConfusion hh)

/-! ### Concrete test fixtures used by witnesses and counterexamples. -/

/-- An axis-aligned rectangle shape fixture: strict interior containment,
boundary-inclusive corner test, exact bounding box. -/
def rectTestShape (ymin zmin ymax zmax : ℚ) (mat : Option ℤ) (mt : MeshType) (ms : Option ℚ) :
    Shape :=
  { id := 1
    material_id := mat
    active := true
    mesh_size := ms
    mesh_type := mt
    contains := fun p => decide (ymin < p.1 ∧ p.1 < ymax ∧ zmin < p.2 ∧ p.2 < zmax)
    containsOrTouches := fun p => decide (ymin ≤ p.1 ∧ p.1 ≤ ymax ∧ zmin ≤ p.2 ∧ p.2 ≤ zmax)
    bounds := ⟨ymin, zmin, ymax, zmax⟩ }

/-- The unit-square quad-meshed shape with no per-shape mesh size. -/
def unitSquareShape : Shape :=
  rectTestShape 0 0 1 1 none .quadrilateral none

/-! ### C9 — polygon degenerate-input policy. -/

/-- C9 counterexample: the vertex list `[(0,0), (1,1)]` has fewer than 3
distinct vertices, yet `PolygonShape._create_geometry` does not
substitute the unit-square fallback — closing the ring and trimming
leaves two coordinates and the shapely constructor raises `ValueError`,
so construction both fails and skips the fallback, refuting the claim. -/
theorem claim9_counterexample :
    polygon_create_geometry [((0 : ℚ), (0 : ℚ)), (1, 1)] = .error "ValueError" ∧
    polygon_create_geometry [((0 : ℚ), (0 : ℚ)), (1, 1)] ≠ .ok unitSquarePoly := by
  decide

/-- C9 amended: the unit-square fallback is substituted exactly for the
empty vertex list, and construction from a degenerate nonempty vertex
list does not fall back but follows the shapely ring rule — the closed
trimmed list needs at least 4 ring coordinates: two distinct vertices
raise `ValueError`; the vertex list `[p, p, q]` (two distinct vertices)
builds a degenerate polygon with neither fallback nor error; the vertex
list `[p, q, p, p]` trims to an already-closed 3-coordinate ring and
raises `ValueError` even though it has four vertices. -/
theorem claim9_fallback_amended :
    polygon_create_geometry [] = .ok unitSquarePoly ∧
    (∀ p q : Point, p ≠ q → polygon_create_geometry [p, q] = .error "ValueError") ∧
    (∀ p q : Point, p ≠ q → polygon_create_geometry [p, p, q] = .ok ⟨[p, p, q, p]⟩) ∧
    (∀ p q : Point, p ≠ q → polygon_create_geometry [p, q, p, p] = .error "ValueError") := by
  refine ⟨by decide, ?_, ?_, ?_⟩
  · intro p q hpq
    simp only [polygon_create_geometry, shapely_polygon, List.getLast, List.dropLast,
      List.cons_append, List.nil_append, if_neg hpq, eq_self_iff_true, if_true]
    rfl
  · intro p q hpq
    simp only [polygon_create_geometry, shapely_polygon, List.getLast, List.dropLast,
      List.cons_append, List.nil_append, if_neg hpq, eq_self_iff_true, if_true]
    rfl
  · intro p q hpq
    simp only [polygon_create_geometry, shapely_polygon, List.getLast, List.dropLast,
      List.cons_append, List.nil_append, if_neg hpq, eq_self_iff_true, if_true]
    rfl

/-- C9 witness: the amended behaviour evaluated at the distinct
vertices `(0,0)` and `(1,1)`. -/
theorem claim9_witness :
    polygon_create_geometry [((0 : ℚ), (0 : ℚ)), (1, 1)] = .error "ValueError" ∧
    polygon_create_geometry [((0 : ℚ), (0 : ℚ)), ((0 : ℚ), (0 : ℚ)), (1, 1)] =
      .ok ⟨[(0, 0), (0, 0), (1, 1), (0, 0)]⟩ ∧
    polygon_create_geometry
      [((0 : ℚ), (0 : ℚ)), (1, 1), ((0 : ℚ), (0 : ℚ)), ((0 : ℚ), (0 : ℚ))] =
      .error "ValueError" :=
  ⟨claim9_fallback_amended.2.1 (0, 0) (1, 1) (by decide),
   claim9_fallback_amended.2.2.1 (0, 0) (1, 1) (by decide),
   claim9_fallback_amended.2.2.2 (0, 0) (1, 1) (by decide)⟩

/-! ### C2 — effective mesh size. -/

set_option maxRecDepth 10000 in
/-- C2: `Shape.__init__` documents `mesh_size = None` as "use the global
mesh size", and the spec promises the `globalMeshSize` argument as the
fallback, but both strategies replace `None` by the fixed default `0.1`
and the `getattr` default carrying the global size is dead because the
attribute always exists.  Evaluated at the failing input — a unit-square
quad shape with `mesh_size = None` under `global_mesh_size = 0.5` — the
generator resolves `0.1` and lays a `(10+1) × (10+1)` node grid (121
nodes), where the documented behaviour would resolve `0.5` and lay a
`(2+1) × (2+1)` grid (9 nodes). -/
theorem claim2_default_size_bug :
    resolve_mesh_size unitSquareShape.mesh_size = 1 / 10 ∧
    resolve_mesh_size unitSquareShape.mesh_size ≠ 1 / 2 ∧
    (generate_mesh (fun _ _ => none) [unitSquareShape] (1 / 2) 0).map
      (fun r => r.map fun m => m.nodes.length) = .ok (some 121) ∧
    (max 2 (pyInt ((1 : ℚ) / (1 / 2))).toNat + 1) *
      (max 2 (pyInt ((1 : ℚ) / (1 / 2))).toNat + 1) = 9 := by
  refine ⟨rfl, by with_unfolding_all decide, ?_, by with_unfolding_all decide⟩
  with_unfolding_all decide

/-! ### C5 — when the generator returns null. -/

/-- The unit square shape, deactivated. -/
def inactiveSquareShape : Shape :=
  { unitSquareShape with active := false }

/-- An active triangular-strategy shape (used with an always-failing
triangulation oracle). -/
def triFailShape : Shape :=
  rectTestShape 0 0 1 1 none .triangular none

/-- C5 counterexample: a single inactive shape filters to an empty
active list, yet `generate_mesh` returns an (empty) mesh rather than
null — null is returned only for an empty input list. -/
theorem claim5_counterexample :
    ([inactiveSquareShape].filter (fun s => s.active)).isEmpty = true ∧
    generate_mesh (fun _ _ => none) [inactiveSquareShape] 1 0 =
      .ok (some { id := 0, nodes := [], elements := [], element_materials := [], fibers := [] }) ∧
    generate_mesh (fun _ _ => none) [inactiveSquareShape] 1 0 ≠ .ok none := by
  decide

/-- Helper: when every active shape's strategy fails, the merge loop
returns its accumulator untouched. -/
theorem genLoop_skip_all (tri : TriOracle) (shapes : List Shape) (acc : Mesh) (cid : ℤ)
    (h : ∀ s ∈ shapes, s.active = true → ∀ mid, shapeLocalMesh tri s mid = none) :
    genLoop tri shapes acc cid = .ok acc := by
  induction shapes generalizing cid with
  | nil => rfl
  | cons s rest ih =>
    simp only [genLoop]
    by_cases hs : s.active = true
    · rw [if_pos hs, h s (List.mem_cons_self s rest) hs cid]
      exact ih (cid + 1) (fun t ht => h t (List.mem_cons_of_mem s ht))
    · rw [if_neg hs]
      exact ih cid (fun t ht => h t (List.mem_cons_of_mem s ht))

/-- C5 amended: `generate_mesh` returns null exactly when the input
shape list is empty (not when the active-filtered list is); for any
non-empty input on which every active shape fails to mesh it returns a
mesh with empty nodes and elements. -/
theorem claim5_null_iff_empty_amended (tri : TriOracle) (shapes : List Shape) (g : ℚ) (c : ℤ) :
    (generate_mesh tri shapes g c = .ok none ↔ shapes = []) ∧
    (shapes ≠ [] →
      (∀ s ∈ shapes, s.active = true → ∀ mid, shapeLocalMesh tri s mid = none) →
      generate_mesh tri shapes g c =
        .ok (some { id := c, nodes := [], elements := [], element_materials := [], fibers := [] })) := by
  constructor
  · constructor
    · intro h
      cases shapes with
      | nil => rfl
      | cons s rest =>
        exfalso
        simp only [generate_mesh] at h
        rcases hloop : genLoop tri (s :: rest) (emptyMeshAt c) (c + 1) with e | m
        · rw [hloop] at h
          exact Except.noConfusion h
        · rw [hloop] at h
          exact Option.noConfusion (Except.ok.inj h)
    · intro h
      subst h
      rfl
  · intro hne hall
    cases shapes with
    | nil => exact absurd rfl hne
    | cons s rest =>
      simp only [generate_mesh]
      rw [genLoop_skip_all tri (s :: rest) _ (c + 1) hall]
      rfl

/-- C5 witness: one active triangular shape under an always-failing
oracle — a non-empty input where every shape fails to mesh yields the
empty mesh, not null. -/
theorem claim5_witness :
    ([triFailShape] ≠ ([] : List Shape)) ∧
    generate_mesh (fun _ _ => none) [triFailShape] 1 2 =
      .ok (some { id := 2, nodes := [], elements := [], element_materials := [], fibers := [] }) :=
  ⟨by simp,
   (claim5_null_iff_empty_amended (fun _ _ => none) [triFailShape] 1 2).2 (by simp)
     (fun s hs _ mid => by
       simp only [List.mem_singleton] at hs
       subst hs
       rfl)⟩

/-! ### C1, C3, C4 — the regeneration command. -/

/-- A Python truthiness artifact: `fs if fs else []` on a list value. -/
theorem ifEmptyList {α : Type} (l : List α) : (if l.isEmpty then ([] : List α) else l) = l := by
  cases l <;> rfl

/-- A mesh-derived fiber living on the prior mesh in the C1 scenario. -/
def fibA : Fiber :=
  { id := 10, y := 0, z := 0, area := 1, material_id := 1, active := true }

/-- A manual fiber living on the section in the C1 scenario. -/
def fibB : Fiber :=
  { id := 20, y := 1, z := 1, area := 2, material_id := 2, active := true }

/-- The previously generated mesh of the C1 scenario; its own fiber list
`[fibA]` differs from the section fiber list `[fibB]`. -/
def priorMeshFix : Mesh :=
  { id := 1, nodes := [], elements := [], element_materials := [], fibers := [fibA] }

/-- The freshly generated (empty) mesh handed to the command. -/
def newMeshFix : Mesh :=
  { id := 2, nodes := [], elements := [], element_materials := [], fibers := [] }

/-- A section with a prior mesh and a prior (manual) fiber list. -/
def sectionFix : SectionData :=
  { id := 1, shapes := [], mesh := some priorMeshFix, fibers := [fibB] }

/-- The command object as it stands after `execute` in the C1 scenario. -/
def opFix1 : OpGenMesh :=
  { section_id := 1, old_mesh := some priorMeshFix, new_mesh := some newMeshFix,
    old_fibers := some [fibB] }

/-- The section as it stands after `execute` in the C1 scenario. -/
def sectionFix1 : SectionData :=
  { id := 1, shapes := [], mesh := some newMeshFix, fibers := [fibB] }

/-- C1 counterexample: running `execute` then `undo` on a section whose
prior mesh carried fiber list `[fibA]` while the section carried
`[fibB]` does restore `section.fibers`, but hands back a
`section.mesh` whose `fibers` attribute was overwritten with `[fibB]` —
not deep-equal to the pre-execute mesh snapshot, refuting both the
"restores section.mesh" and the "no overwrite of the prior mesh's
fibers" parts of the claim. -/
theorem claim1_counterexample :
    (dm_generate_mesh sectionFix (some newMeshFix)).map
        (fun r => ((op_undo r.1 r.2).2.mesh, (op_undo r.1 r.2).2.fibers)) =
      some (some { priorMeshFix with fibers := [fibB] }, [fibB]) ∧
    some { priorMeshFix with fibers := [fibB] } ≠ sectionFix.mesh := by
  constructor
  · rfl
  · decide

/-- C1 amended: after a successful `execute`, `undo` restores
`section.fibers` to its pre-execute snapshot exactly, and restores
`section.mesh` to the prior mesh — except that the prior mesh's
`fibers` attribute is overwritten with the pre-execute section fiber
snapshot, so the restored mesh deep-equals the snapshot only when the
two fiber lists already agreed. -/
theorem claim1_undo_restores_amended (sd : SectionData) (nm : Mesh)
    (op1 : OpGenMesh) (sd1 : SectionData)
    (h : dm_generate_mesh sd (some nm) = some (op1, sd1)) :
    (op_undo op1 sd1).2.fibers = sd.fibers ∧
    (op_undo op1 sd1).2.mesh = sd.mesh.map (fun m => { m with fibers := sd.fibers }) := by
  simp only [dm_generate_mesh, op_execute] at h
  rcases hgf : generate_fibers nm (sd.shapes.filter fun s => s.active) with _ | ⟨m2, nf⟩ <;>
    rw [hgf] at h
  · exact Option.noConfusion h
  · obtain ⟨hop, hsd⟩ := Prod.mk.inj (Option.some.inj h)
    subst hop
    subst hsd
    cases hm : sd.mesh with
    | none => exact ⟨rfl, rfl⟩
    | some pm =>
      exact ⟨rfl, congrArg
        (fun l => some (Mesh.mk pm.id pm.nodes pm.elements pm.element_materials l))
        (ifEmptyList sd.fibers)⟩

/-- C1 witness: the amended statement applied to the concrete C1
scenario section. -/
theorem claim1_witness :
    dm_generate_mesh sectionFix (some newMeshFix) = some (opFix1, sectionFix1) ∧
    ((op_undo opFix1 sectionFix1).2.fibers = sectionFix.fibers ∧
     (op_undo opFix1 sectionFix1).2.mesh =
       sectionFix.mesh.map (fun m => { m with fibers := sectionFix.fibers })) :=
  ⟨rfl, claim1_undo_restores_amended sectionFix newMeshFix opFix1 sectionFix1 rfl⟩

/-- The spec-side merge: existing fibers first and unchanged, then
exactly the new mesh fibers whose id collides with no existing fiber. -/
def spec_merge (existing newFibers : List Fiber) : List Fiber :=
  existing ++ newFibers.filter (fun f => decide (∀ e ∈ existing, e.id ≠ f.id))

/-- The command's id-set filter agrees pointwise with the spec-side
no-collision predicate. -/
theorem mergeFilterAgrees (existing : List Fiber) (f : Fiber) :
    (!((existing.map (fun e => e.id)).contains f.id)) =
      decide (∀ e ∈ existing, e.id ≠ f.id) := by
  rw [Bool.eq_iff_iff]
  simp [List.contains]

/-- C3: a successful `execute` sets `section.fibers` to the existing
fibers (unchanged, in order) followed by exactly those newly generated
mesh fibers whose id occurs in no existing fiber; colliding new fibers
are dropped and the existing ones kept. -/
theorem claim3_merge_by_id (op : OpGenMesh) (sd : SectionData) (m m2 : Mesh) (nf : List Fiber)
    (hm : op.new_mesh = some m)
    (hgf : generate_fibers m (sd.shapes.filter fun s => s.active) = some (m2, nf)) :
    (op_execute op sd).map (fun r => r.2.fibers) = some (spec_merge sd.fibers nf) := by
  simp only [op_execute, hm]
  rw [hgf]
  show some (sd.fibers ++
      nf.filter (fun f => !((sd.fibers.map (fun e => e.id)).contains f.id))) =
    some (spec_merge sd.fibers nf)
  exact congrArg some (congrArg (fun l => sd.fibers ++ l)
    (List.filter_congr (fun f _ => mergeFilterAgrees sd.fibers f)))

/-- The two-triangle unit-square mesh used by merge and fiber witnesses. -/
def twoTriMesh : Mesh :=
  { id := 3, nodes := [(0, 0), (1, 0), (0, 1), (1, 1)], elements := [[0, 1, 2], [1, 3, 2]],
    element_materials := [1, 1], fibers := [] }

/-- A pre-existing manual fiber whose id 1 collides with the first
generated mesh fiber. -/
def fibOld1 : Fiber :=
  { id := 1, y := 5, z := 5, area := 9, material_id := 4, active := true }

/-- The fibers `generate_fibers` derives from `twoTriMesh` with no
shapes: sequential ids, triangle centroids, areas 1/2, material 1. -/
def twoTriFibers : List Fiber :=
  [{ id := 1, y := 1 / 3, z := 1 / 3, area := 1 / 2, material_id := 1, active := true },
   { id := 2, y := 2 / 3, z := 2 / 3, area := 1 / 2, material_id := 1, active := true }]

/-- The section of the C3 scenario: one manual fiber with id 1. -/
def sectionFixC3 : SectionData :=
  { id := 1, shapes := [], mesh := none, fibers := [fibOld1] }

/-- The command of the C3 scenario, carrying the two-triangle mesh. -/
def opFixC3 : OpGenMesh :=
  { section_id := 1, old_mesh := none, new_mesh := some twoTriMesh, old_fibers := none }

/-- C3 witness: on the concrete collision scenario the merge keeps the
existing id-1 fiber unchanged and appends only the novel id-2 fiber. -/
theorem claim3_witness :
    opFixC3.new_mesh = some twoTriMesh ∧
    generate_fibers twoTriMesh (sectionFixC3.shapes.filter fun s => s.active) =
      some ({ twoTriMesh with fibers := twoTriFibers }, twoTriFibers) ∧
    (op_execute opFixC3 sectionFixC3).map (fun r => r.2.fibers) =
      some (spec_merge sectionFixC3.fibers twoTriFibers) ∧
    spec_merge sectionFixC3.fibers twoTriFibers = [fibOld1, twoTriFibers.getD 1 fibOld1] :=
  ⟨rfl,
   by with_unfolding_all decide,
   claim3_merge_by_id opFixC3 sectionFixC3 twoTriMesh { twoTriMesh with fibers := twoTriFibers }
     twoTriFibers rfl (by with_unfolding_all decide),
   by with_unfolding_all decide⟩

/-- Helper: `generate_fibers` reads only the node and element lists, so
the fiber list already stored on the mesh never influences it. -/
theorem generate_fibers_fibers_irrel (m : Mesh) (x : List Fiber) (shapes : List Shape) :
    generate_fibers { m with fibers := x } shapes = generate_fibers m shapes := rfl

/-- Helper: the mesh a successful `generate_fibers` returns is the input
mesh with its fiber list replaced wholesale. -/
theorem generate_fibers_result (m : Mesh) (shapes : List Shape) (m2 : Mesh) (fs : List Fiber)
    (h : generate_fibers m shapes = some (m2, fs)) : m2 = { m with fibers := fs } := by
  unfold generate_fibers at h
  split at h
  · exact Option.noConfusion h
  · split at h
    · exact Option.noConfusion h
    · obtain ⟨h1, h2⟩ := Prod.mk.inj (Option.some.inj h)
      rw [← h1, ← h2]

/-- C4: after `execute` and `undo`, re-running the command's `execute`
(which is what `DataManager.redo` does) reproduces a
`section.mesh`/`section.fibers` pair deep-equal to the post-execute
state.  The command re-applies its cached `new_mesh` field — `execute`
takes no triangulation oracle at all, so a triangulation routine
returning different output on a second invocation cannot influence the
redo — and rebuilds the fiber merge deterministically from that cached
mesh. -/
theorem claim4_redo_deterministic (sd : SectionData) (nm : Option Mesh)
    (op1 : OpGenMesh) (sd1 : SectionData)
    (h : dm_generate_mesh sd nm = some (op1, sd1)) :
    (op_execute (op_undo op1 sd1).1 (op_undo op1 sd1).2).map (fun r => (r.2.mesh, r.2.fibers)) =
      some (sd1.mesh, sd1.fibers) := by
  cases nm with
  | none => exact Option.noConfusion h
  | some m =>
    simp only [dm_generate_mesh, op_execute] at h
    rcases hgf : generate_fibers m (sd.shapes.filter fun s => s.active) with _ | ⟨m2, nf⟩ <;>
      rw [hgf] at h
    · exact Option.noConfusion h
    · obtain ⟨hop, hsd⟩ := Prod.mk.inj (Option.some.inj h)
      subst hop
      subst hsd
      have hm2 := generate_fibers_result _ _ _ _ hgf
      subst hm2
      cases hmesh : sd.mesh with
      | none =>
        simp only [op_undo, op_execute]
        rw [generate_fibers_fibers_irrel, hgf]
        rfl
      | some pm =>
        simp only [op_undo, op_execute]
        rw [generate_fibers_fibers_irrel, hgf]
        rfl

/-- C4 witness: the redo-equals-execute behaviour on the concrete C1
scenario (prior mesh, manual fiber, fresh empty mesh). -/
theorem claim4_witness :
    dm_generate_mesh sectionFix (some newMeshFix) = some (opFix1, sectionFix1) ∧
    (op_execute (op_undo opFix1 sectionFix1).1 (op_undo opFix1 sectionFix1).2).map
        (fun r => (r.2.mesh, r.2.fibers)) = some (sectionFix1.mesh, sectionFix1.fibers) :=
  ⟨rfl, claim4_redo_deterministic sectionFix (some newMeshFix) opFix1 sectionFix1 rfl⟩

/-! ### C6, C7 — fiber discretization. -/

/-- The per-element success condition of the Python loop: the shapely
constructor accepts the element's coordinate ring (closed length at
least 4) and the resulting polygon is nonempty, so the centroid
coordinates are readable. -/
def ringConstructible (ps : List Point) : Bool :=
  match shapely_polygon ps with
  | .ok poly => !poly.coords.isEmpty
  | .error _ => false

/-- A mesh on which `generate_fibers` runs to completion: every element
looks up only in-range node ids (the lookup succeeds) and its
coordinates form a constructible, nonempty ring. -/
def meshRingsOk (m : Mesh) : Bool :=
  m.elements.all fun e =>
    match nodeCoords m.nodes e with
    | some ps => ringConstructible ps
    | none => false

/-- A mesh satisfying the node-index invariant whose single element
`[0, 1, 0]` yields the already-closed 3-coordinate ring `[p, q, p]`. -/
def badRingMesh : Mesh :=
  { id := 9, nodes := [(0, 0), (1, 1)], elements := [[0, 1, 0]],
    element_materials := [1], fibers := [] }

/-- C6 counterexample: a mesh whose single element references only
in-range node ids, yet whose coordinates form an already-closed
3-coordinate ring that the shapely polygon constructor rejects —
`generate_fibers` propagates the raise and returns no fiber list at
all, not one fiber per element. -/
theorem claim6_counterexample :
    (∀ e ∈ badRingMesh.elements, ∀ nid ∈ e, nid < badRingMesh.nodes.length) ∧
    badRingMesh.elements.length = 1 ∧
    generate_fibers badRingMesh [] = none := by
  decide

/-- Helper: element coordinate extraction succeeds, one coordinate list
per element, on a mesh passing the per-element ring check, and every
extracted ring passes it. -/
theorem elementCoords_of_ringsOk (nodes : List Point) (es : List (List ℕ))
    (h : (es.all fun e =>
      match nodeCoords nodes e with
      | some ps => ringConstructible ps
      | none => false) = true) :
    ∃ css, elementCoords nodes es = some css ∧ css.length = es.length ∧
      ∀ ps ∈ css, ringConstructible ps = true := by
  induction es with
  | nil => exact ⟨[], rfl, rfl, fun ps hps => absurd hps (List.not_mem_nil ps)⟩
  | cons e rest ih =>
    rw [List.all_cons, Bool.and_eq_true] at h
    obtain ⟨h1, h2⟩ := h
    obtain ⟨css, hcss, hlen, hall⟩ := ih h2
    rcases hne : nodeCoords nodes e with _ | ps <;> rw [hne] at h1
    · exact Bool.noConfusion h1
    · refine ⟨ps :: css, ?_, by simp [hlen], ?_⟩
      · simp [elementCoords, hne, hcss]
      · intro x hx
        rcases List.mem_cons.mp hx with hh | hh
        · subst hh
          exact h1
        · exact hall x hh

/-- Helper: one unfolding step of the element loop when the head ring
constructs a nonempty polygon. -/
theorem elementFibers_cons_eq (shapes : List Shape) (i : ℕ) (ps : List Point)
    (rest : List (List Point)) (poly : SPoly) (fs : List Fiber)
    (hsp : shapely_polygon ps = .ok poly) (hemp : poly.coords.isEmpty = false)
    (hfs : elementFibers shapes (i + 1) rest = some fs) :
    elementFibers shapes i (ps :: rest) = some (mkFiber shapes i poly.coords :: fs) := by
  unfold elementFibers
  rw [hsp]
  show (if poly.coords.isEmpty then none
    else match elementFibers shapes (i + 1) rest with
      | none => none
      | some fs => some (mkFiber shapes i poly.coords :: fs)) = _
  rw [hemp, hfs]
  rfl

/-- Helper: the element loop succeeds on constructible rings, one fiber
per ring, ids ascending from the start index plus one. -/
theorem elementFibers_total (shapes : List Shape) (css : List (List Point))
    (h : ∀ ps ∈ css, ringConstructible ps = true) :
    ∀ i : ℕ, ∃ fs, elementFibers shapes i css = some fs ∧ fs.length = css.length ∧
      ∀ k : ℕ, ∀ hk : k < fs.length, (fs.get ⟨k, hk⟩).id = (i : ℤ) + (k : ℤ) + 1 := by
  induction css with
  | nil =>
    intro i
    exact ⟨[], rfl, rfl, fun k hk => absurd hk (by simp)⟩
  | cons ps rest ih =>
    intro i
    have hps := h ps (List.mem_cons_self ps rest)
    unfold ringConstructible at hps
    rcases hsp : shapely_polygon ps with e | poly <;> rw [hsp] at hps
    · exact Bool.noConfusion hps
    · have hemp : poly.coords.isEmpty = false := by simpa using hps
      obtain ⟨fs, hfs, hlen, hids⟩ := ih (fun x hx => h x (List.mem_cons_of_mem ps hx)) (i + 1)
      refine ⟨mkFiber shapes i poly.coords :: fs,
        elementFibers_cons_eq shapes i ps rest poly fs hsp hemp hfs, by simp [hlen], ?_⟩
      intro k hk
      cases k with
      | zero =>
        show (i : ℤ) + 1 = (i : ℤ) + 0 + 1
        omega
      | succ k2 =>
        have := hids k2 (by simpa using hk)
        rw [List.get_cons_succ, this]
        push_cast
        omega

/-- C6 amended: on every mesh whose elements all reference in-range
node ids and form shapely-constructible nonempty rings (at least 4 ring
coordinates after closure — e.g. any triangle or quad whose first and
last vertices differ; this is `meshRingsOk`, and it holds vacuously for
the empty mesh), `generate_fibers` succeeds and returns exactly one
fiber per element in visitation order, ids assigned sequentially from
1, and the returned mesh is the input with its fiber list replaced
wholesale.  On other meshes the node lookup or the polygon constructor
raises instead (see the counterexample). -/
theorem claim6_fiber_generation_amended (m : Mesh) (shapes : List Shape)
    (hok : meshRingsOk m = true) :
    ∃ m2 fs, generate_fibers m shapes = some (m2, fs) ∧
      fs.length = m.elements.length ∧
      (∀ k : ℕ, ∀ hk : k < fs.length, (fs.get ⟨k, hk⟩).id = (k : ℤ) + 1) ∧
      m2 = { m with fibers := fs } := by
  obtain ⟨css, hcss, hlen, hall⟩ := elementCoords_of_ringsOk m.nodes m.elements hok
  obtain ⟨fs, hfs, hflen, hids⟩ := elementFibers_total shapes css hall 0
  refine ⟨{ m with fibers := fs }, fs, ?_, by rw [hflen, hlen], ?_, rfl⟩
  · unfold generate_fibers
    rw [hcss]
    show (match elementFibers shapes 0 css with
      | none => none
      | some fibers => some ({ m with fibers := fibers }, fibers)) = _
    rw [hfs]
  · intro k hk
    have := hids k hk
    rw [this]
    omega

/-- C6 witness: the amended property instantiated on the concrete
two-triangle mesh (its ring check discharged there). -/
theorem claim6_witness :
    meshRingsOk twoTriMesh = true ∧
    (∃ m2 fs, generate_fibers twoTriMesh [] = some (m2, fs) ∧
      fs.length = twoTriMesh.elements.length ∧
      (∀ k : ℕ, ∀ hk : k < fs.length, (fs.get ⟨k, hk⟩).id = (k : ℤ) + 1) ∧
      m2 = { twoTriMesh with fibers := fs }) :=
  ⟨by decide, claim6_fiber_generation_amended twoTriMesh [] (by decide)⟩

/-- The spec-side material resolution: the first shape in list order
that is active and contains the point supplies its material id when
set, 1 otherwise; 1 when no shape contains the point. -/
def find_material (shapes : List Shape) (p : Point) : ℤ :=
  match shapes.find? (fun s => s.active && s.contains p) with
  | some s => s.material_id.getD 1
  | none => 1

/-- The embedded resolution loop agrees with the spec-side first-match
description. -/
theorem resolve_material_eq_find (shapes : List Shape) (p : Point) :
    resolve_material shapes p = find_material shapes p := by
  induction shapes with
  | nil => rfl
  | cons s rest ih =>
    by_cases h : (s.active && s.contains p) = true
    · rw [find_material,
        @List.find?_cons_of_pos Shape (fun t => t.active && t.contains p) s rest h]
      simp only [resolve_material, if_pos h]
      cases s.material_id <;> rfl
    · rw [find_material,
        @List.find?_cons_of_neg Shape (fun t => t.active && t.contains p) s rest (by simpa using h)]
      simp only [resolve_material, if_neg h]
      exact ih

/-- Helper: every fiber the element loop produces carries the material
the resolution loop assigns at its stored `(y, z)` position. -/
theorem elementFibers_material (shapes : List Shape) (css : List (List Point)) :
    ∀ (i : ℕ) (fs : List Fiber), elementFibers shapes i css = some fs →
      ∀ f ∈ fs, f.material_id = resolve_material shapes (f.y, f.z) := by
  induction css with
  | nil =>
    intro i fs h f hf
    have : fs = [] := (Option.some.inj h).symm
    subst this
    exact absurd hf (List.not_mem_nil f)
  | cons ps rest ih =>
    intro i fs h f hf
    unfold elementFibers at h
    split at h
    · exact Option.noConfusion h
    · rename_i poly hsp
      split at h
      · exact Option.noConfusion h
      · rcases hr : elementFibers shapes (i + 1) rest with _ | fs2 <;> rw [hr] at h
        · exact Option.noConfusion h
        · have hcons : mkFiber shapes i poly.coords :: fs2 = fs := Option.some.inj h
          rw [← hcons] at hf
          rcases List.mem_cons.mp hf with hh | hh
          · subst hh
            rfl
          · exact ih (i + 1) fs2 hr f hh

/-- C7: every generated fiber's material id follows the first-match
rule over the shape list evaluated at the fiber's centroid (its `(y, z)`
position): the first active shape containing it supplies
`material_id or 1`, and when no active shape contains it the material
is 1 — in overlaps the first-listed shape wins. -/
theorem claim7_material_resolution (m : Mesh) (shapes : List Shape) (m2 : Mesh) (fs : List Fiber)
    (h : generate_fibers m shapes = some (m2, fs)) :
    ∀ f ∈ fs, f.material_id = find_material shapes (f.y, f.z) ∧
      ((∀ s ∈ shapes, s.active = true → s.contains (f.y, f.z) = false) →
        f.material_id = 1) := by
  have hres : ∀ f ∈ fs, f.material_id = resolve_material shapes (f.y, f.z) := by
    unfold generate_fibers at h
    split at h
    · exact Option.noConfusion h
    · rename_i css hcss
      split at h
      · exact Option.noConfusion h
      · rename_i fibers hef
        obtain ⟨h1, h2⟩ := Prod.mk.inj (Option.some.inj h)
        rw [← h2]
        exact elementFibers_material shapes css 0 fibers hef
  intro f hf
  have hid := hres f hf
  constructor
  · rw [hid, resolve_material_eq_find]
  · intro hnone
    have hfind : shapes.find? (fun s => s.active && s.contains (f.y, f.z)) = none :=
      List.find?_eq_none.mpr (fun x hx hpx => by
        obtain ⟨ha, hc⟩ := Bool.and_eq_true_iff.mp hpx
        exact absurd hc (by simp [hnone x hx ha]))
    rw [hid, resolve_material_eq_find, find_material, hfind]

/-- First of two overlapping material shapes: material 7. -/
def matShapeA : Shape :=
  rectTestShape 0 0 2 2 (some 7) .triangular none

/-- Second of two overlapping material shapes: material 9. -/
def matShapeB : Shape :=
  rectTestShape 0 0 4 4 (some 9) .triangular none

/-- The fibers the two-triangle mesh yields under the overlapping
shapes: both centroids lie in the overlap, so both take material 7. -/
def overlapFibers : List Fiber :=
  [{ id := 1, y := 1 / 3, z := 1 / 3, area := 1 / 2, material_id := 7, active := true },
   { id := 2, y := 2 / 3, z := 2 / 3, area := 1 / 2, material_id := 7, active := true }]

/-- C7 witness: on the two-triangle mesh under two overlapping shapes
with materials 7 and 9, every fiber resolves by first-match — both
fibers take material 7 of the first-listed shape. -/
theorem claim7_witness :
    generate_fibers twoTriMesh [matShapeA, matShapeB] =
      some ({ twoTriMesh with fibers := overlapFibers }, overlapFibers) ∧
    (∀ f ∈ overlapFibers, f.material_id = find_material [matShapeA, matShapeB] (f.y, f.z) ∧
      ((∀ s ∈ [matShapeA, matShapeB], s.active = true → s.contains (f.y, f.z) = false) →
        f.material_id = 1)) ∧
    overlapFibers.map (fun f => f.material_id) = [7, 7] :=
  ⟨by with_unfolding_all decide,
   claim7_material_resolution twoTriMesh [matShapeA, matShapeB]
     { twoTriMesh with fibers := overlapFibers } overlapFibers (by with_unfolding_all decide),
   by decide⟩

/-! ### C8 — the quadrilateral strategy's grid and inclusion rule. -/

/-- Helper: the quad node grid has `(nZ+1) * (nY+1)` nodes. -/
theorem quadNodes_length (minY minZ width height : ℚ) (nY nZ : ℕ) :
    (quadNodes minY minZ width height nY nZ).length = (nZ + 1) * (nY + 1) := by
  simp [quadNodes, List.length_flatMap, Function.comp_def, List.map_const',
    List.sum_replicate, smul_eq_mul, Nat.mul_comm]

/-- Helper: row-major grid ids determine the grid cell. -/
theorem quadIdx_inj (nY i j i2 j2 : ℕ) (hj : j < nY + 1) (hj2 : j2 < nY + 1)
    (h : quadIdx nY i j = quadIdx nY i2 j2) : i = i2 ∧ j = j2 := by
  have key : ∀ a b : ℕ, b < nY + 1 →
      (a * (nY + 1) + b) / (nY + 1) = a ∧ (a * (nY + 1) + b) % (nY + 1) = b := by
    intro a b hb
    constructor
    · rw [Nat.mul_comm a (nY + 1), Nat.mul_add_div (Nat.succ_pos nY), Nat.div_eq_of_lt hb]
      rfl
    · rw [Nat.mul_comm a (nY + 1), Nat.mul_add_mod, Nat.mod_eq_of_lt hb]

  obtain ⟨d1, m1⟩ := key i j hj
  obtain ⟨d2, m2⟩ := key i2 j2 hj2
  unfold quadIdx at h
  exact ⟨by rw [← d1, h, d2], by rw [← m1, h, m2]⟩

/-- Helper: a cell's corner list is emitted exactly when at least 3 of
its 4 corners pass the inclusion test. -/
theorem quadCorners_mem_quadCells (active : List Shape) (nodes : List Point) (nY nZ i j : ℕ)
    (hi : i < nZ) (hj : j < nY) :
    quadCorners nY i j ∈ quadCells active nodes nY nZ ↔
      3 ≤ quadInsideCount active nodes nY i j := by
  unfold quadCells
  rw [List.mem_flatMap]
  constructor
  · rintro ⟨i2, hi2, hmem⟩
    rw [List.mem_filterMap] at hmem
    obtain ⟨j2, hj2, heq⟩ := hmem
    rw [List.mem_range] at hi2 hj2
    by_cases hc : 3 ≤ quadInsideCount active nodes nY i2 j2
    · rw [if_pos hc] at heq
      have hcor := Option.some.inj heq
      have hhead : quadIdx nY i2 j2 = quadIdx nY i j := by
        have := congrArg (fun l => l.headI) hcor
        simpa [quadCorners] using this
      obtain ⟨hii, hjj⟩ := quadIdx_inj nY i2 j2 i j (by omega) (by omega) hhead
      subst hii
      subst hjj
      exact hc
    · rw [if_neg hc] at heq
      exact Option.noConfusion heq
  · intro hc
    exact ⟨i, List.mem_range.mpr hi,
      List.mem_filterMap.mpr ⟨j, List.mem_range.mpr hj, by rw [if_pos hc]⟩⟩

/-- The grid column count the quad strategy uses for a single shape:
`max(2, int(width / mesh_size))`. -/
def quadNY (s : Shape) (msOpt : Option ℚ) : ℕ :=
  max 2 (pyInt ((s.bounds.maxY - s.bounds.minY) / resolve_mesh_size msOpt)).toNat

/-- The grid row count the quad strategy uses for a single shape:
`max(2, int(height / mesh_size))`. -/
def quadNZ (s : Shape) (msOpt : Option ℚ) : ℕ :=
  max 2 (pyInt ((s.bounds.maxZ - s.bounds.minZ) / resolve_mesh_size msOpt)).toNat

/-- The mesh the quad strategy produces for one active shape. -/
def quadMeshOf (s : Shape) (msOpt : Option ℚ) (mid : ℤ) : Mesh :=
  let nodes := quadNodes s.bounds.minY s.bounds.minZ (s.bounds.maxY - s.bounds.minY)
    (s.bounds.maxZ - s.bounds.minZ) (quadNY s msOpt) (quadNZ s msOpt)
  { id := mid
    nodes := nodes
    elements := quadCells [s] nodes (quadNY s msOpt) (quadNZ s msOpt)
    element_materials := (quadCells [s] nodes (quadNY s msOpt) (quadNZ s msOpt)).map fun _ => 1
    fibers := [] }

/-- Helper: on a single active shape the quad strategy succeeds and
produces exactly the grid-and-cells mesh above. -/
theorem generate_quad_mesh_single (s : Shape) (msOpt : Option ℚ) (mid : ℤ)
    (hact : s.active = true) :
    generate_quad_mesh [s] msOpt mid = some (quadMeshOf s msOpt mid) := by
  have hfil : [s].filter (fun t => t.active) = [s] := by
    simp [List.filter_cons, hact]
  unfold generate_quad_mesh quadMeshOf quadNY quadNZ
  rw [hfil]
  rfl

/-- C8: for a single active shape under the quadrilateral strategy, the
node grid has `(nZ+1) * (nY+1)` nodes with
`nY = max 2 ⌊width / meshSize⌋` and `nZ = max 2 ⌊height / meshSize⌋`
over the shape's bounding box, and a grid cell's quadrilateral is
emitted exactly when at least 3 of its 4 corners are inside or touching
the shape; in particular a 2-corner cell is excluded and a 3-corner
cell included. -/
theorem claim8_quad_rule (s : Shape) (msOpt : Option ℚ) (mid : ℤ)
    (hact : s.active = true)
    (hms : 0 < resolve_mesh_size msOpt)
    (hby : s.bounds.minY ≤ s.bounds.maxY) (hbz : s.bounds.minZ ≤ s.bounds.maxZ) :
    ∃ mesh nY nZ,
      generate_quad_mesh [s] msOpt mid = some mesh ∧
      nY = max 2 (⌊(s.bounds.maxY - s.bounds.minY) / resolve_mesh_size msOpt⌋).toNat ∧
      nZ = max 2 (⌊(s.bounds.maxZ - s.bounds.minZ) / resolve_mesh_size msOpt⌋).toNat ∧
      mesh.nodes.length = (nZ + 1) * (nY + 1) ∧
      (∀ i j : ℕ, i < nZ → j < nY →
        ((quadCorners nY i j ∈ mesh.elements ↔
            3 ≤ quadInsideCount [s] mesh.nodes nY i j) ∧
         (quadInsideCount [s] mesh.nodes nY i j = 2 →
            quadCorners nY i j ∉ mesh.elements) ∧
         (quadInsideCount [s] mesh.nodes nY i j = 3 →
            quadCorners nY i j ∈ mesh.elements))) := by
  have hpyY : pyInt ((s.bounds.maxY - s.bounds.minY) / resolve_mesh_size msOpt) =
      ⌊(s.bounds.maxY - s.bounds.minY) / resolve_mesh_size msOpt⌋ := by
    unfold pyInt
    exact if_pos (div_nonneg (sub_nonneg.mpr hby) hms.le)
  have hpyZ : pyInt ((s.bounds.maxZ - s.bounds.minZ) / resolve_mesh_size msOpt) =
      ⌊(s.bounds.maxZ - s.bounds.minZ) / resolve_mesh_size msOpt⌋ := by
    unfold pyInt
    exact if_pos (div_nonneg (sub_nonneg.mpr hbz) hms.le)
  refine ⟨quadMeshOf s msOpt mid, quadNY s msOpt, quadNZ s msOpt,
    generate_quad_mesh_single s msOpt mid hact, ?_, ?_, ?_, ?_⟩
  · unfold quadNY
    rw [hpyY]
  · unfold quadNZ
    rw [hpyZ]
  · exact quadNodes_length _ _ _ _ _ _
  · intro i j hi hj
    have hmem := quadCorners_mem_quadCells [s] (quadMeshOf s msOpt mid).nodes
      (quadNY s msOpt) (quadNZ s msOpt) i j hi hj
    exact ⟨hmem,
      fun h2 hm => by have := hmem.mp hm; omega,
      fun h3 => hmem.mpr (by omega)⟩

/-- The unit square meshed with the quad strategy at size 1/2. -/
def quadHalfShape : Shape :=
  rectTestShape 0 0 1 1 none .quadrilateral (some (1 / 2))

/-- C8 witness: the grid-and-inclusion rule applied to the unit square
at mesh size 1/2 (a 3 × 3 node grid). -/
theorem claim8_witness :
    quadHalfShape.active = true ∧
    0 < resolve_mesh_size quadHalfShape.mesh_size ∧
    quadHalfShape.bounds.minY ≤ quadHalfShape.bounds.maxY ∧
    quadHalfShape.bounds.minZ ≤ quadHalfShape.bounds.maxZ ∧
    (∃ mesh nY nZ,
      generate_quad_mesh [quadHalfShape] quadHalfShape.mesh_size 0 = some mesh ∧
      nY = max 2 (⌊(quadHalfShape.bounds.maxY - quadHalfShape.bounds.minY) /
        resolve_mesh_size quadHalfShape.mesh_size⌋).toNat ∧
      nZ = max 2 (⌊(quadHalfShape.bounds.maxZ - quadHalfShape.bounds.minZ) /
        resolve_mesh_size quadHalfShape.mesh_size⌋).toNat ∧
      mesh.nodes.length = (nZ + 1) * (nY + 1) ∧
      (∀ i j : ℕ, i < nZ → j < nY →
        ((quadCorners nY i j ∈ mesh.elements ↔
            3 ≤ quadInsideCount [quadHalfShape] mesh.nodes nY i j) ∧
         (quadInsideCount [quadHalfShape] mesh.nodes nY i j = 2 →
            quadCorners nY i j ∉ mesh.elements) ∧
         (quadInsideCount [quadHalfShape] mesh.nodes nY i j = 3 →
            quadCorners nY i j ∈ mesh.elements)))) :=
  ⟨rfl,
   by with_unfolding_all decide,
   by with_unfolding_all decide,
   by with_unfolding_all decide,
   claim8_quad_rule quadHalfShape quadHalfShape.mesh_size 0 rfl
     (by with_unfolding_all decide)
     (by with_unfolding_all decide)
     (by with_unfolding_all decide)⟩

/-! ### C10 — node-index validity of every generated mesh. -/

/-- The §3 invariant: every node index an element references is a valid
index into the mesh's node list. -/
def meshElementsValid (m : Mesh) : Prop :=
  ∀ e ∈ m.elements, ∀ n ∈ e, n < m.nodes.length

/-- Helper: a remapped element only holds indices below the new total
node count. -/
theorem remapElement_bound (base len : ℕ) (e e2 : List ℕ)
    (h : remapElement base len e = some e2) : ∀ n ∈ e2, n < base + len := by
  induction e generalizing e2 with
  | nil =>
    have : e2 = [] := (Option.some.inj h).symm
    subst this
    intro n hn
    exact absurd hn (List.not_mem_nil n)
  | cons a rest ih =>
    unfold remapElement at h
    by_cases ha : a < len
    · rw [if_pos ha] at h
      rcases hr : remapElement base len rest with _ | r2 <;> rw [hr] at h
      · exact Option.noConfusion h
      · have : (base + a) :: r2 = e2 := Option.some.inj h
        subst this
        intro n hn
        rcases List.mem_cons.mp hn with h1 | h2
        · subst h1
          omega
        · exact ih r2 hr n h2
    · rw [if_neg ha] at h
      exact Option.noConfusion h

/-- Helper: every remapped element of a merged local mesh is bounded by
the new total node count. -/
theorem remapElements_bound (base len : ℕ) (es es2 : List (List ℕ))
    (h : remapElements base len es = some es2) :
    ∀ e ∈ es2, ∀ n ∈ e, n < base + len := by
  induction es generalizing es2 with
  | nil =>
    have : es2 = [] := (Option.some.inj h).symm
    subst this
    intro e he
    exact absurd he (List.not_mem_nil e)
  | cons e rest ih =>
    unfold remapElements at h
    rcases h1 : remapElement base len e with _ | e2 <;> rw [h1] at h
    · exact Option.noConfusion h
    · rcases h2 : remapElements base len rest with _ | rest2 <;> rw [h2] at h
      · exact Option.noConfusion h
      · have : e2 :: rest2 = es2 := Option.some.inj h
        subst this
        intro x hx
        rcases List.mem_cons.mp hx with hh | hh
        · subst hh
          exact remapElement_bound base len e x h1
        · exact ih rest2 h2 x hh

/-- Helper: merging a local mesh preserves the index invariant. -/
theorem mergeShapeMesh_valid (acc : Mesh) (matId : ℤ) (lm : Mesh) (acc2 : Mesh)
    (hacc : meshElementsValid acc) (h : mergeShapeMesh acc matId lm = some acc2) :
    meshElementsValid acc2 := by
  simp only [mergeShapeMesh] at h
  rcases hre : remapElements acc.nodes.length lm.nodes.length lm.elements with _ | mapped <;>
    rw [hre] at h
  · exact Option.noConfusion h
  · have hval := Option.some.inj h
    subst hval
    intro e he n hn
    simp only [List.length_append]
    rcases List.mem_append.mp he with h1 | h2
    · have := hacc e h1 n hn
      omega
    · have := remapElements_bound _ _ _ _ hre e h2 n hn
      omega

/-- Helper: the strategy-and-merge loop preserves the index invariant. -/
theorem genLoop_valid (tri : TriOracle) (shapes : List Shape) (acc : Mesh) (cid : ℤ) (m : Mesh)
    (hacc : meshElementsValid acc) (h : genLoop tri shapes acc cid = .ok m) :
    meshElementsValid m := by
  induction shapes generalizing acc cid with
  | nil =>
    have : acc = m := Except.ok.inj h
    subst this
    exact hacc
  | cons s rest ih =>
    unfold genLoop at h
    split at h
    · split at h
      next lm hlm =>
        split at h
        next acc2 hmg => exact ih _ _ (mergeShapeMesh_valid _ _ _ _ hacc hmg) h
        next hmg => exact Except.noConfusion h
      next hlm => exact ih _ _ hacc h
    · exact ih _ _ hacc h

/-- C10: whatever the triangulation oracle returns, every mesh
`generate_mesh` actually returns satisfies the index invariant: each
node index referenced in `elements` is strictly below the node count
(an out-of-range local index can only crash the merge, never flow into
a returned mesh). -/
theorem claim10_index_validity (tri : TriOracle) (shapes : List Shape) (g : ℚ) (c : ℤ)
    (mesh : Mesh) (h : generate_mesh tri shapes g c = .ok (some mesh)) :
    meshElementsValid mesh := by
  cases shapes with
  | nil => exact Option.noConfusion (Except.ok.inj h)
  | cons s rest =>
    have h2 : (match genLoop tri (s :: rest) (emptyMeshAt c) (c + 1) with
        | Except.ok m => Except.ok (some m)
        | Except.error e => (Except.error e : Except String (Option Mesh))) =
        Except.ok (some mesh) := h
    rcases hloop : genLoop tri (s :: rest) (emptyMeshAt c) (c + 1) with e | m2 <;>
      rw [hloop] at h2
    · exact Except.noConfusion h2
    · have : m2 = mesh := Option.some.inj (Except.ok.inj h2)
      subst this
      exact genLoop_valid tri (s :: rest) _ _ _
        (fun e he => absurd he (List.not_mem_nil e)) hloop

/-- A triangulation oracle returning one fixed triangle. -/
def triOracleFix : TriOracle :=
  fun _ _ => some ([(0, 0), (1, 0), (0, 1)], [[0, 1, 2]])

/-- The merged mesh `generate_mesh` builds from `triOracleFix` on one
active triangular shape. -/
def triMergedMesh : Mesh :=
  { id := 0, nodes := [(0, 0), (1, 0), (0, 1)], elements := [[0, 1, 2]],
    element_materials := [1], fibers := [] }

/-- C10 witness: the invariant observed on a concrete triangulated run. -/
theorem claim10_witness :
    generate_mesh triOracleFix [triFailShape] 1 0 = .ok (some triMergedMesh) ∧
    meshElementsValid triMergedMesh :=
  ⟨rfl, claim10_index_validity triOracleFix [triFailShape] 1 0 triMergedMesh rfl⟩

end Mesh2Model
